import Mathlib

/-!
Verification of the ClosedCaption application (`src/main.py`).

Shallow embedding of the presentation-layer state machine
(`CaptionWindow._process_text_update`, `_update_color_cache`,
`_apply_visual_settings`, `on_settings_changed`) and of the
transcriber lifecycle (`AudioTranscriber.stop`).

Machine reals: Python computes the fade factors in IEEE double
precision.  Over the whole reachable domain (colour components
0..255 obtained from two hex digits, slot index 0..9) the truncated
products `int(c * factor)` agree exactly with the rational
computation `⌊c * max(1/5, 1 - i/15)⌋`, because `MAX_HISTORY * 1.5`
is exactly 15.0 and the rounding error of `i/15.0` never crosses an
integer boundary of `c * factor` in that range; we therefore embed
the computation over `ℚ`.
-/

namespace ClosedCaption

/-- The constant `MAX_HISTORY = 10` (src/main.py line 23). -/
def MAX_HISTORY : Nat := 10

/-- Presentation-layer caption state: the rolling history list
(`self.history`, a fixed-size buffer of `MAX_HISTORY` strings) and
the text of the partial-result label (`self.partial_label`).
`pendingText` embeds the partial slot. -/
structure CaptionState where
  history : List String
  pendingText : String
  deriving DecidableEq, Repr

/-- Initial caption state: `self.history = [""] * MAX_HISTORY`
(src/main.py line 194) and an empty partial label. -/
def initCaptionState : CaptionState :=
  { history := List.replicate MAX_HISTORY "", pendingText := "" }

/-- Embedding of `CaptionWindow._process_text_update` (src/main.py lines 335-355):
on a final event, insert the text at history index 0, pop the last
entry when the length exceeds `MAX_HISTORY`, and clear the partial
slot; on a partial event, replace the partial slot only. -/
def processTextUpdate (s : CaptionState) (text : String) (isFinal : Bool) :
    CaptionState :=
  if isFinal then
    let h := text :: s.history
    let h := if MAX_HISTORY < h.length then h.dropLast else h
    { history := h, pendingText := "" }
  else
    { s with pendingText := text }

/-- Fold a sequence of transcription events `(text, is_final)` through
the presentation layer, in arrival order. -/
def processAll (s : CaptionState) (evs : List (String × Bool)) : CaptionState :=
  evs.foldl (fun s e => processTextUpdate s e.1 e.2) s

/-! ## Colour fade cache (`CaptionWindow._update_color_cache`) -/

/-- Hexadecimal value of a single character, `none` when the character
is not a hexadecimal digit. -/
def hexVal (c : Char) : Option Nat :=
  if '0' ≤ c ∧ c ≤ '9' then some (c.toNat - '0'.toNat)
  else if 'a' ≤ c ∧ c ≤ 'f' then some (c.toNat - 'a'.toNat + 10)
  else if 'A' ≤ c ∧ c ≤ 'F' then some (c.toNat - 'A'.toNat + 10)
  else none

/-- Model of Python's `int(s, 16)` on a character list: on a
non-empty string of plain hexadecimal digits it returns the value,
otherwise `none`.  It is exact — agreeing with Python, which raises
`ValueError` — on plain-hex strings and on the empty string.
Python's parser additionally accepts an optional sign, surrounding
whitespace, underscores between digits and Unicode decimal digits
(e.g. `int("+f", 16) = 15`), forms on which this model returns `none`
although Python succeeds; the theorems below therefore use
`parseHexL` only under success hypotheses, where Python agrees, or at
concrete slices that are plain hex digits or empty, where it is
exact. -/
def parseHexL (l : List Char) : Option Nat :=
  if l ≠ [] ∧ l.all (fun c => (hexVal c).isSome) then
    some (l.foldl (fun acc c => 16 * acc + (hexVal c).getD 0) 0)
  else none

/-- Python's slice `s[a:b]` (for `0 ≤ a ≤ b`) as a character list. -/
def strSliceL (s : String) (a b : Nat) : List Char :=
  (s.toList.drop a).take (b - a)

/-- Python's `s.startswith(c)` for a single-character prefix. -/
def strStartsWith (s : String) (c : Char) : Bool :=
  s.toList.head? = some c

/-- The brightness factor of history slot `i`
(src/main.py lines 268-269): `factor = 1.0 - (i / (MAX_HISTORY * 1.5))`
then `factor = max(0.2, factor)`, embedded over `ℚ`. -/
def fadeFactor (i : Nat) : ℚ :=
  max (0.2 : ℚ) (1 - (i : ℚ) / ((MAX_HISTORY : ℚ) * 1.5))

/-- Python's `int(c * factor)` for a non-negative colour component:
truncation, which on non-negative values is the floor. -/
def scaleComp (c : Nat) (f : ℚ) : Nat :=
  (Int.floor ((c : ℚ) * f)).toNat

/-- One lowercase hex digit character (values 0..15, as produced by
Python's `"%x"` formatting). -/
def hexChar (n : Nat) : Char :=
  "0123456789abcdef".toList.getD n '0'

/-- Python's `f"{n:02x}"` for `n < 256`: two lowercase hex digits,
zero padded.  All colour components this program formats satisfy
`n ≤ 255`, since they are parsed from two hex digits and scaled by a
factor `≤ 1`. -/
def toHex2 (n : Nat) : String :=
  String.mk [hexChar (n / 16 % 16), hexChar (n % 16)]

/-- The faded colour string `f"#{nr:02x}{ng:02x}{nb:02x}"`
(src/main.py lines 271-274) for base components `r g b` at slot `i`. -/
def fadedColor (r g b : Nat) (i : Nat) : String :=
  "#" ++ toHex2 (scaleComp r (fadeFactor i)) ++
    toHex2 (scaleComp g (fadeFactor i)) ++
    toHex2 (scaleComp b (fadeFactor i))

/-- Embedding of `CaptionWindow._update_color_cache` (src/main.py lines 245-274) as a
function from the configured `text_color` to the new colour cache.
`none` embeds the Python `ValueError` escaping from `int(_, 16)`; the
caller observes `self.color_cache = []` in that case, since the method
clears the cache before parsing. -/
def updateColorCache (base : String) : Option (List String) :=
  if strStartsWith base '#' = false then
    some (List.replicate MAX_HISTORY base)
  else
    match parseHexL (strSliceL base 1 3), parseHexL (strSliceL base 3 5),
        parseHexL (strSliceL base 5 7) with
    | some r, some g, some b =>
        some ((List.range MAX_HISTORY).map (fadedColor r g b))
    | _, _, _ => none

/-! ## Layout (`CaptionWindow._apply_visual_settings`) -/

/-- A window geometry `f"{w}x{h}+{x}+{y}"` as passed to
`self.root.geometry`. -/
structure Geometry where
  w : Int
  h : Int
  x : Int
  y : Int
  deriving DecidableEq, Repr

/-- The environment read by `_apply_visual_settings`: screen size from
`winfo_screenwidth/height` and the current window width from
`winfo_width`. -/
structure ScreenEnv where
  screenW : Int
  screenH : Int
  winfoW : Int
  deriving DecidableEq, Repr

/-- The geometry part of `CaptionWindow._apply_visual_settings`
(src/main.py lines 289-313): the geometry command issued (`none` when
no `geometry` call is made, i.e. fullscreen or floating), and the
wraplength `window_width - 50`, where `window_width` is the screen
width except in floating mode, which uses `winfo_width` with a
fallback of 800 when it is `≤ 1`. -/
def applyLayout (position : String) (fullscreen : Bool) (env : ScreenEnv) :
    Option Geometry × Int :=
  if fullscreen then (none, env.screenW - 50)
  else if position = "top" then
    (some ⟨env.screenW, 250, 0, 0⟩, env.screenW - 50)
  else if position = "bottom" then
    (some ⟨env.screenW, 250, 0, env.screenH - 250 - 40⟩, env.screenW - 50)
  else
    let windowWidth := if env.winfoW ≤ 1 then 800 else env.winfoW
    (none, windowWidth - 50)

/-! ## Settings application (`CaptionWindow.on_settings_changed`) -/

/-- The settings dictionary (src/main.py lines 187-193). -/
structure DisplaySettings where
  font_family : String
  font_size : Int
  text_color : String
  position : String
  fullscreen : Bool
  deriving DecidableEq, Repr

/-- Everything `_apply_visual_settings` pushes to the render target:
font, partial-label colour, the per-slot history colours (label `i`
receives `self.color_cache[i]`, and the cache has `MAX_HISTORY`
entries whenever this method runs), the geometry command and the
wraplength. -/
structure VisualOut where
  fontFamily : String
  fontSize : Int
  textColor : String
  historyColors : List String
  geometry : Option Geometry
  wrapLen : Int
  deriving DecidableEq, Repr

/-- Embedding of `CaptionWindow._apply_visual_settings` (src/main.py lines 276-321)
as a function of the settings, the current colour cache and the screen
environment. -/
def applyVisualSettings (cfg : DisplaySettings) (cache : List String)
    (env : ScreenEnv) : VisualOut :=
  let lay := applyLayout cfg.position cfg.fullscreen env
  { fontFamily := cfg.font_family
    fontSize := cfg.font_size
    textColor := cfg.text_color
    historyColors := cache
    geometry := lay.1
    wrapLen := lay.2 }

/-- The full mutable state of `CaptionWindow` that
`on_settings_changed` touches, plus the caption state. `visual` holds
the last output pushed to the render target (`none` before the first
application). -/
structure CWState where
  captions : CaptionState
  settings : DisplaySettings
  colorCache : List String
  visual : Option VisualOut
  deriving DecidableEq, Repr

/-- Embedding of `CaptionWindow.on_settings_changed` (src/main.py lines 326-329):
store the new settings, recompute the colour cache in full, then
reapply the visual settings.  When `_update_color_cache` raises
(`updateColorCache _ = none`), the cache has already been cleared to
`[]` and `_apply_visual_settings` is never reached, so `visual` keeps
its previous value. -/
def onSettingsChanged (st : CWState) (cfg : DisplaySettings)
    (env : ScreenEnv) : CWState :=
  match updateColorCache cfg.text_color with
  | none => { st with settings := cfg, colorCache := [] }
  | some cache =>
      { st with settings := cfg, colorCache := cache,
                visual := some (applyVisualSettings cfg cache env) }

/-! ## Transcriber lifecycle (`AudioTranscriber`) -/

/-- The lifecycle state of `AudioTranscriber`: the `running` flag and
the worker thread handle (`self.thread`, `None` until `start()` runs).
Thread handles are abstracted as identifiers. -/
structure TranscriberState where
  running : Bool
  thread : Option Nat
  deriving DecidableEq, Repr

/-- Embedding of `AudioTranscriber.__init__` (src/main.py lines 35-37):
`running = False`, `thread = None`. -/
def initTranscriber : TranscriberState :=
  { running := false, thread := none }

/-- The externally observable action of `stop()`: joining a thread
with a timeout (in seconds). -/
inductive StopAction where
  | joinThread (id : Nat) (timeout : ℚ)
  deriving DecidableEq, Repr

/-- Embedding of `AudioTranscriber.stop` (src/main.py lines 110-114): set
`self.running = False`; then, only if `self.thread` is not `None`,
join it with `timeout=2.0`.  The function is total: no exception is
raised on any state. -/
def TranscriberState.stop (s : TranscriberState) :
    TranscriberState × List StopAction :=
  let s' : TranscriberState := { s with running := false }
  match s'.thread with
  | some t => (s', [StopAction.joinThread t 2])
  | none => (s', [])

/-! ## Helper lemmas about the caption history -/

/-- A final update on a full history is: cons the new text, drop the
last entry, clear the partial slot. -/
lemma processTextUpdate_final_of_full (s : CaptionState) (t : String)
    (h : s.history.length = MAX_HISTORY) :
    processTextUpdate s t true =
      { history := t :: s.history.dropLast, pendingText := "" } := by
  have hne : s.history ≠ [] := by
    intro hnil
    rw [hnil] at h
    simp [MAX_HISTORY] at h
  simp only [processTextUpdate, List.length_cons, h, if_pos]
  rw [if_pos (by simp [MAX_HISTORY]), List.dropLast_cons_of_ne_nil hne]

/-- Any single event preserves the history length `MAX_HISTORY`. -/
lemma processTextUpdate_length (s : CaptionState) (t : String) (b : Bool)
    (h : s.history.length = MAX_HISTORY) :
    (processTextUpdate s t b).history.length = MAX_HISTORY := by
  cases b with
  | false => simpa [processTextUpdate] using h
  | true =>
    rw [processTextUpdate_final_of_full s t h]
    simp [List.length_dropLast, h]
    rfl

/-- Any event sequence preserves the history length `MAX_HISTORY`. -/
lemma processAll_length (evs : List (String × Bool)) :
    ∀ s : CaptionState, s.history.length = MAX_HISTORY →
      (processAll s evs).history.length = MAX_HISTORY := by
  induction evs with
  | nil => intro s h; exact h
  | cons e evs ih =>
    intro s h
    exact ih _ (processTextUpdate_length s e.1 e.2 h)

/-- Replacing the last history entry of a full buffer is invisible
under a `take MAX_HISTORY` after any non-empty prefix. -/
lemma take_append_dropLast (M h : List String)
    (hM : 1 ≤ M.length) (hh : h.length = MAX_HISTORY) :
    (M ++ h.dropLast).take MAX_HISTORY = (M ++ h).take MAX_HISTORY := by
  rw [List.take_append_eq_append_take, List.take_append_eq_append_take,
    List.dropLast_eq_take, hh]
  have h9 : MAX_HISTORY - M.length ≤ MAX_HISTORY - 1 := by omega
  rw [List.take_take]
  congr 1
  congr 1
  simp [MAX_HISTORY] at h9 ⊢
  omega

/-- Folding a sequence of final texts over a full history yields the
reversed texts followed by the old history, truncated to
`MAX_HISTORY`. -/
lemma processAll_finals (texts : List String) :
    ∀ s : CaptionState, s.history.length = MAX_HISTORY →
      (processAll s (texts.map fun t => (t, true))).history =
        (texts.reverse ++ s.history).take MAX_HISTORY := by
  induction texts with
  | nil =>
    intro s h
    simp only [List.map_nil, processAll, List.foldl_nil, List.reverse_nil,
      List.nil_append]
    rw [← h, List.take_length]
  | cons t ts ih =>
    intro s h
    have hstep := processTextUpdate_final_of_full s t h
    have hlen : (processTextUpdate s t true).history.length = MAX_HISTORY :=
      processTextUpdate_length s t true h
    show (processAll (processTextUpdate s t true) (ts.map fun t => (t, true))).history = _
    rw [ih _ hlen, hstep]
    have : ts.reverse ++ t :: s.history.dropLast =
        (ts.reverse ++ [t]) ++ s.history.dropLast := by simp
    rw [this, take_append_dropLast _ _ (by simp) h]
    simp

/-! ## Claim theorems -/

/-- C1 (counterexample): after a single final event `"a"` from the
initial state, the history is NOT the one-element list `["a"]`: the
buffer keeps its fixed length 10, padded with empty strings, so the
claim "the resulting caption history equals exactly the last
min(k,10) final texts" fails at k = 1. -/
theorem C1_counterexample :
    (processAll initCaptionState [("a", true)]).history ≠ ["a"] := by
  decide

/-- C1 (amended): after any sequence of final-event texts from the
initial state, the first min(k,10) history entries are the last
min(k,10) final texts in reverse-chronological order (index 0 = most
recent, entries beyond 10 evicted oldest-first), and the remaining
10 − min(k,10) entries are the surviving empty-string padding of the
initial fixed-size buffer. -/
theorem C1_history_contents (texts : List String) :
    (processAll initCaptionState (texts.map fun t => (t, true))).history =
      texts.reverse.take MAX_HISTORY ++
        List.replicate (MAX_HISTORY - min texts.length MAX_HISTORY) "" := by
  rw [processAll_finals texts initCaptionState (by decide)]
  show (texts.reverse ++ List.replicate MAX_HISTORY "").take MAX_HISTORY = _
  rw [List.take_append_eq_append_take, List.take_replicate]
  congr 2
  simp [MAX_HISTORY]
  omega

/-- C2: twelve final events `"cap0".."cap11"` from the initial state
leave exactly the ten entries `["cap11", ..., "cap2"]`; `"cap0"` and
`"cap1"` are evicted. -/
theorem C2_twelve_finals :
    (processAll initCaptionState
      [("cap0", true), ("cap1", true), ("cap2", true), ("cap3", true),
       ("cap4", true), ("cap5", true), ("cap6", true), ("cap7", true),
       ("cap8", true), ("cap9", true), ("cap10", true), ("cap11", true)]).history =
    ["cap11", "cap10", "cap9", "cap8", "cap7", "cap6", "cap5", "cap4",
     "cap3", "cap2"] := by
  decide

/-- C6: the partial events `"hel"`, `"hell"`, `"hello"` followed by
the final event `"hello world"` leave the partial slot empty and
history slot 0 equal to `"hello world"`, with the remaining slots
equal to their initial values; in general a partial event replaces
only the partial slot and leaves the history untouched. -/
theorem C6_partial_then_final :
    (processAll initCaptionState
        [("hel", false), ("hell", false), ("hello", false),
         ("hello world", true)] =
      { history := "hello world" :: List.replicate 9 "", pendingText := "" }) ∧
    ((processAll initCaptionState
        [("hel", false), ("hell", false), ("hello", false),
         ("hello world", true)]).history.tail =
      initCaptionState.history.tail) ∧
    (∀ (s : CaptionState) (t : String),
      processTextUpdate s t false = { s with pendingText := t }) := by
  refine ⟨by decide, by decide, fun s t => rfl⟩

/-- C9: the history is initialized to 10 empty strings; it invariantly
contains exactly `MAX_HISTORY` = 10 strings after any event sequence;
and every final event on the full buffer inserts at index 0 and then
removes the tail entry. -/
theorem C9_fixed_size_invariant :
    initCaptionState.history = List.replicate MAX_HISTORY "" ∧
    (∀ evs : List (String × Bool),
      (processAll initCaptionState evs).history.length = MAX_HISTORY) ∧
    (∀ (s : CaptionState) (t : String), s.history.length = MAX_HISTORY →
      processTextUpdate s t true =
        { history := t :: s.history.dropLast, pendingText := "" }) :=
  ⟨rfl, fun evs => processAll_length evs initCaptionState (by decide),
    fun s t h => processTextUpdate_final_of_full s t h⟩

/-- C9 witness: the final-event shape at a concrete full state. -/
theorem C9_witness :
    processTextUpdate
        { history := List.replicate MAX_HISTORY "x", pendingText := "p" }
        "y" true =
      { history := "y" :: (List.replicate MAX_HISTORY "x").dropLast,
        pendingText := "" } :=
  C9_fixed_size_invariant.2.2
    { history := List.replicate MAX_HISTORY "x", pendingText := "p" }
    "y" (by decide)

/-- C3: when the base colour parses as an RGB hex triple `(r, g, b)`,
the recomputed fade table is exactly the `MAX_HISTORY` colours
obtained by scaling the base components by the slot factors; the
factor of slot `i` is `max(0.2, 1 - i/(10*1.5))`, factors are
non-increasing in the slot index, bounded in `[0.2, 1]`, and the
factor of slot 0 is exactly 1. -/
theorem C3_fade_table (base : String) (r g b : Nat)
    (hstart : strStartsWith base '#' = true)
    (hr : parseHexL (strSliceL base 1 3) = some r)
    (hg : parseHexL (strSliceL base 3 5) = some g)
    (hb : parseHexL (strSliceL base 5 7) = some b) :
    updateColorCache base =
      some ((List.range MAX_HISTORY).map (fadedColor r g b)) ∧
    ((List.range MAX_HISTORY).map (fadedColor r g b)).length = MAX_HISTORY ∧
    (∀ i : Fin MAX_HISTORY,
      ((List.range MAX_HISTORY).map (fadedColor r g b))[i.val]? =
        some ("#" ++ toHex2 (scaleComp r (fadeFactor i.val)) ++
          toHex2 (scaleComp g (fadeFactor i.val)) ++
          toHex2 (scaleComp b (fadeFactor i.val)))) ∧
    (∀ i : Fin MAX_HISTORY,
      fadeFactor i.val = max (0.2 : ℚ) (1 - (i.val : ℚ) / (10 * 1.5))) ∧
    (∀ i j : Fin MAX_HISTORY, i ≤ j → fadeFactor j.val ≤ fadeFactor i.val) ∧
    (∀ i : Fin MAX_HISTORY,
      (0.2 : ℚ) ≤ fadeFactor i.val ∧ fadeFactor i.val ≤ 1) ∧
    fadeFactor 0 = 1 := by
  refine ⟨?_, by simp, ?_, ?_, ?_, ?_, ?_⟩
  · simp [updateColorCache, hstart, hr, hg, hb]
  · intro i
    have hi : i.val < MAX_HISTORY := i.isLt
    simp [List.getElem?_map, List.getElem?_range, hi, fadedColor]
  · intro i; fin_cases i <;> norm_num [fadeFactor, MAX_HISTORY]
  · intro i j hij
    fin_cases i <;> fin_cases j <;> (try exact absurd hij (by decide)) <;>
      norm_num [fadeFactor, MAX_HISTORY]
  · intro i; fin_cases i <;> norm_num [fadeFactor, MAX_HISTORY]
  · norm_num [fadeFactor, MAX_HISTORY]

/-- C3 witness: the fade table of `"#FFFFFF"`. -/
theorem C3_witness :
    updateColorCache "#FFFFFF" =
      some ((List.range MAX_HISTORY).map (fadedColor 255 255 255)) :=
  (C3_fade_table "#FFFFFF" 255 255 255 (by decide) (by decide) (by decide)
    (by decide)).1

/-- C4: a base colour that does not start with `"#"` yields
`MAX_HISTORY` slots that all contain the identical unscaled base
colour, and the recomputation succeeds (no error). -/
theorem C4_nonhex_fallback (base : String)
    (h : strStartsWith base '#' = false) :
    updateColorCache base = some (List.replicate MAX_HISTORY base) ∧
    (List.replicate MAX_HISTORY base).length = MAX_HISTORY ∧
    ∀ c ∈ List.replicate MAX_HISTORY base, c = base := by
  refine ⟨by simp [updateColorCache, h], by simp, ?_⟩
  intro c hc
  exact List.eq_of_mem_replicate hc

/-- C4 witness: the fallback at the symbolic colour name `"white"`. -/
theorem C4_witness :
    updateColorCache "white" = some (List.replicate MAX_HISTORY "white") :=
  (C4_nonhex_fallback "white" (by decide)).1

/-- C5: on a 1920x1080 screen in non-fullscreen mode, dock-top yields
geometry 1920x250+0+0 and dock-bottom (with the 40-unit taskbar
offset) yields 1920x250+0+790; in both docked modes the wraplength is
1920 − 50 = 1870, whatever `winfo_width` currently reports. -/
theorem C5_dock_geometry (wW : Int) :
    applyLayout "top" false ⟨1920, 1080, wW⟩ =
      (some ⟨1920, 250, 0, 0⟩, 1870) ∧
    applyLayout "bottom" false ⟨1920, 1080, wW⟩ =
      (some ⟨1920, 250, 0, 790⟩, 1870) := by
  constructor <;> simp [applyLayout]

/-- C7: applying the same `DisplaySettings` a second time, with the
screen dimensions and window state unchanged, leaves the window state
(colour fade table, geometry output and all) identical to the first
application. -/
theorem C7_settings_idempotent (st : CWState) (cfg : DisplaySettings)
    (env : ScreenEnv) :
    onSettingsChanged (onSettingsChanged st cfg env) cfg env =
      onSettingsChanged st cfg env := by
  cases h : updateColorCache cfg.text_color with
  | none => simp [onSettingsChanged, h]
  | some cache => simp [onSettingsChanged, h]

/-- C8: `stop()` always sets the running flag false and is total (it
raises no exception on any state); when the worker thread was never
started (`thread = None`) it performs no join at all, and when a
thread exists it joins it with a 2-second timeout. -/
theorem C8_stop (s : TranscriberState) :
    (s.stop.1.running = false) ∧
    (s.thread = none → s.stop = ({ s with running := false }, [])) ∧
    (∀ t, s.thread = some t →
      s.stop = ({ s with running := false }, [StopAction.joinThread t 2])) := by
  refine ⟨?_, ?_, ?_⟩ <;> cases h : s.thread <;>
    simp_all [TranscriberState.stop]

/-- C8 witness: `stop()` on a freshly constructed transcriber whose
thread was never started. -/
theorem C8_witness :
    TranscriberState.stop initTranscriber =
      ({ running := false, thread := none }, []) :=
  (C8_stop initTranscriber).2.1 rfl

/-- The parse `parseHexL` succeeds exactly on non-empty all-hex character
lists. -/
lemma parseHexL_isSome (l : List Char) :
    (parseHexL l).isSome = true ↔
      (l ≠ [] ∧ l.all (fun c => (hexVal c).isSome) = true) := by
  unfold parseHexL
  split <;> simp_all

/-- Structural fact about the embedding: for a base colour starting
with `'#'`, `updateColorCache` succeeds exactly when all three
component slices parse under `parseHexL`.  (This speaks of the model;
`parseHexL = none` does not always mean Python fails, so claim
theorems use only directions and instances where the two agree.) -/
lemma updateColorCache_isSome_of_hash (s : String) (cs : List Char)
    (hs : s.toList = '#' :: cs) :
    ((updateColorCache s).isSome = true ↔
      ((parseHexL (cs.take 2)).isSome = true ∧
       (parseHexL ((cs.drop 2).take 2)).isSome = true ∧
       (parseHexL ((cs.drop 4).take 2)).isSome = true)) := by
  have hd : s.data = '#' :: cs := hs
  have hstart : strStartsWith s '#' = true := by simp [strStartsWith, hd]
  have h13 : strSliceL s 1 3 = cs.take 2 := by simp [strSliceL, hd]
  have h35 : strSliceL s 3 5 = (cs.drop 2).take 2 := by
    simp [strSliceL, hd, List.drop_succ_cons]
  have h57 : strSliceL s 5 7 = (cs.drop 4).take 2 := by
    simp [strSliceL, hd, List.drop_succ_cons]
  simp only [updateColorCache, hstart, h13, h35, h57]
  cases parseHexL (cs.take 2) <;> cases parseHexL ((cs.drop 2).take 2) <;>
    cases parseHexL ((cs.drop 4).take 2) <;> simp

/-- C10 (counterexample): `"#FFFFF"` starts with `"#"` and has only
five characters after it, yet recomputing the colour fade table
succeeds: the slice `base_color[5:7]` is the one-character string
`"F"`, which `int(_, 16)` parses without error, so "total only under
at least six hexadecimal digits" is false. -/
theorem C10_counterexample :
    strStartsWith "#FFFFF" '#' = true ∧
    ("#FFFFF".toList.drop 1).length = 5 ∧
    (updateColorCache "#FFFFF").isSome = true := by
  decide

/-- C10 (amended): recomputing the colour fade table is total
whenever a base colour starting with `"#"` has hexadecimal digits as
its first six characters after the `"#"` — but not only then:
`"#FFFFF"`, with five, also produces a table, because the
one-character slice `base_color[5:7] = "F"` parses; for `"#FFF"` the
component parse `int(base_color[5:7], 16)` is applied to an empty
slice and raises a `ValueError` instead of producing a table.  (All
three parts evaluate the parse on plain-hex or empty slices, where
the embedding agrees exactly with Python's `int(_, 16)`.) -/
theorem C10_hex_totality :
    (∀ (s : String) (cs : List Char), s.toList = '#' :: cs →
      6 ≤ cs.length →
      (cs.take 6).all (fun c => (hexVal c).isSome) = true →
      (updateColorCache s).isSome = true) ∧
    (updateColorCache "#FFF" = none) ∧
    ((updateColorCache "#FFFFF").isSome = true) := by
  refine ⟨?_, by decide, by decide⟩
  intro s cs hs hlen hall
  rw [updateColorCache_isSome_of_hash s cs hs, parseHexL_isSome,
    parseHexL_isSome, parseHexL_isSome]
  have h6 : cs.take 6 =
      cs.take 2 ++ ((cs.drop 2).take 2 ++ (cs.drop 4).take 2) := by
    rw [show (6 : ℕ) = 2 + (2 + 2) from rfl, List.take_add, List.take_add,
      List.drop_drop]
  rw [h6] at hall
  simp only [List.all_append, Bool.and_eq_true] at hall
  have hne : cs ≠ [] := by
    intro hn; rw [hn] at hlen; simp at hlen
  refine ⟨⟨?_, hall.1⟩, ⟨?_, hall.2.1⟩, ⟨?_, hall.2.2⟩⟩
  · simp only [ne_eq, List.take_eq_nil_iff, not_or]
    exact ⟨by omega, hne⟩
  · simp only [ne_eq, List.take_eq_nil_iff, List.drop_eq_nil_iff, not_or,
      not_le]
    exact ⟨by omega, by omega⟩
  · simp only [ne_eq, List.take_eq_nil_iff, List.drop_eq_nil_iff, not_or,
      not_le]
    exact ⟨by omega, by omega⟩

/-- C10 witness: the sufficiency direction applied to `"#ABCDEF"`. -/
theorem C10_witness : (updateColorCache "#ABCDEF").isSome = true :=
  C10_hex_totality.1 "#ABCDEF" "ABCDEF".toList rfl (by decide) (by decide)

end ClosedCaption
